import Mathlib

/-!
# Verification of the campaign-management discount engine

A shallow embedding, in Lean 4, of the eligibility / discount-calculation /
budget-allocation core of the campaign management service
(`app/crud.py`, `app/routers/discounts.py`, `app/models.py`,
`app/schemas.py`), together with theorems settling the specification
claims about it.

Modelling conventions:
* Python floats holding currency amounts are modelled as rationals (`ℚ`);
  `round(x, 2)` is modelled as round-half-to-even at two decimal places.
* Timestamps (`datetime`) are modelled as integers (seconds); the start of
  the calendar day containing `t` is `86400 * (t / 86400)` (floor division),
  mirroring `datetime.replace(hour=0, minute=0, second=0, microsecond=0)`.
* Python truthiness tests on nullable numeric columns
  (`if campaign.discount_percentage:`) are modelled by `truthy`, which is
  false both for `None` and for the value `0`.
* The SQLAlchemy session is modelled by an explicit `DB` state (campaign
  table, customer table, usage-record table) threaded through the
  operations; raising `HTTPException` is modelled by returning an error
  without touching the state.
* Presentation-only columns (`name`, `description`, `created_at`,
  `updated_at`) play no role in any modelled computation and are omitted
  from the record types.
-/

namespace CampaignService

/-- `app/models.py` `DiscountType`: CART or DELIVERY. -/
inductive DiscountType where
  | cart
  | delivery
deriving DecidableEq, Repr

/-- `app/models.py` `CampaignStatus`. -/
inductive CampaignStatus where
  | active
  | inactive
  | expired
  | budget_exhausted
deriving DecidableEq, Repr

/-- `app/models.py` `Campaign` row (configuration plus mutable state).
`target_customers` models the `campaign_customers` association rows of the
campaign. -/
structure Campaign where
  id : Nat
  discount_type : DiscountType
  discount_percentage : Option ℚ
  discount_flat : Option ℚ
  start_date : ℤ
  end_date : ℤ
  total_budget : ℚ
  used_budget : ℚ
  max_usage_per_customer_per_day : Nat
  min_cart_value : ℚ
  max_discount_amount : Option ℚ
  is_targeted : Bool
  target_customers : List Nat
  status : CampaignStatus
deriving DecidableEq, Repr

/-- `app/models.py` `DiscountUsage` row. -/
structure UsageRecord where
  campaign_id : Nat
  customer_id : Nat
  discount_amount : ℚ
  cart_value : ℚ
  used_at : ℤ
deriving DecidableEq, Repr

/-- Python truthiness of a nullable numeric column: `None` and `0` are
falsy, every other value truthy. -/
def truthy (o : Option ℚ) : Bool :=
  match o with
  | none => false
  | some q => q != 0

/-- Round-half-to-even of a rational to an integer, modelling the rounding
performed by Python's built-in `round`. -/
def roundHalfEven (q : ℚ) : ℤ :=
  if q - ⌊q⌋ < 1/2 then ⌊q⌋
  else if 1/2 < q - ⌊q⌋ then ⌊q⌋ + 1
  else if ⌊q⌋ % 2 = 0 then ⌊q⌋ else ⌊q⌋ + 1

/-- `round(x, 2)`: round to two decimal places (currency precision). -/
def roundTo2 (q : ℚ) : ℚ :=
  (roundHalfEven (100 * q) : ℚ) / 100

/-- A currency amount representable at two decimal places (a whole number
of cents). -/
def cents (q : ℚ) : Prop :=
  (100 * q).den = 1

instance : DecidablePred cents := fun q => by
  unfold cents; infer_instance

/-- `app/crud.py` `calculate_discount_amount`, lines 427-433: the base
discount before capping.  Note the truthiness tests: a percentage of `0`
falls through to the flat amount, and an absent configuration yields `0`. -/
def base_discount (campaign : Campaign) (value : ℚ) : ℚ :=
  if truthy campaign.discount_percentage then
    value * (campaign.discount_percentage.getD 0 / 100)
  else if truthy campaign.discount_flat then
    campaign.discount_flat.getD 0
  else 0

/-- `app/crud.py` `calculate_discount_amount`: base amount, then cap to
`max_discount_amount` (truthiness test, so a cap of `0` is skipped), then
cap to remaining budget, then cap to the value itself, then round to two
decimal places. -/
def calculate_discount_amount (campaign : Campaign) (value : ℚ) : ℚ :=
  let discount := base_discount campaign value
  let discount :=
    if truthy campaign.max_discount_amount ∧
        discount > campaign.max_discount_amount.getD 0 then
      campaign.max_discount_amount.getD 0
    else discount
  let remaining_budget := campaign.total_budget - campaign.used_budget
  let discount := if discount > remaining_budget then remaining_budget else discount
  let discount := if discount > value then value else discount
  roundTo2 discount

/-- Start of the UTC calendar day containing instant `t`
(`date.replace(hour=0, minute=0, second=0, microsecond=0)`). -/
def startOfDay (t : ℤ) : ℤ :=
  86400 * (t / 86400)

/-- `app/crud.py` `get_customer_daily_usage_count`: number of usage records
of this campaign by this customer with `start_of_day ≤ used_at <
start_of_day + 1 day`. -/
def get_customer_daily_usage_count (ledger : List UsageRecord)
    (campaign_id customer_id : Nat) (date : ℤ) : Nat :=
  (ledger.filter (fun u =>
    u.campaign_id == campaign_id && u.customer_id == customer_id &&
    decide (startOfDay date ≤ u.used_at) &&
    decide (u.used_at < startOfDay date + 86400))).length

/-- `app/crud.py` `get_eligible_campaigns`: the SQL stage filters on
status, date range (note `end_date >= now`: the window is closed at both
ends), budget, minimum cart value and the optional discount-type filter;
the Python loop then checks targeting, the daily usage limit and that the
remaining budget is positive. -/
def get_eligible_campaigns (campaigns : List Campaign)
    (ledger : List UsageRecord) (customer_id : Nat) (cart_value : ℚ)
    (now : ℤ) (discount_type : Option DiscountType) : List Campaign :=
  let base := campaigns.filter (fun c =>
    (c.status == CampaignStatus.active) &&
    decide (c.start_date ≤ now) &&
    decide (c.end_date ≥ now) &&
    decide (c.used_budget < c.total_budget) &&
    decide (c.min_cart_value ≤ cart_value) &&
    (match discount_type with
     | some t => c.discount_type == t
     | none => true))
  base.filter (fun c =>
    (!c.is_targeted || c.target_customers.contains customer_id) &&
    decide (get_customer_daily_usage_count ledger c.id customer_id now
      < c.max_usage_per_customer_per_day) &&
    decide (0 < c.total_budget - c.used_budget))

/-- `app/crud.py` `update_campaign_status`: lazily derive EXPIRED /
BUDGET_EXHAUSTED from the current time and budget figures. -/
def update_campaign_status (campaign : Campaign) (now : ℤ) : Campaign :=
  if campaign.end_date < now then
    { campaign with status := CampaignStatus.expired }
  else if campaign.used_budget ≥ campaign.total_budget then
    { campaign with status := CampaignStatus.budget_exhausted }
  else campaign

/-- The database state threaded through the operations: the campaign
table, the customer table (identified by id) and the usage-record table. -/
structure DB where
  campaigns : List Campaign
  customers : List Nat
  ledger : List UsageRecord
deriving DecidableEq, Repr

/-- `app/crud.py` `get_campaign`: look a campaign up by primary key. -/
def get_campaign (db : DB) (campaign_id : Nat) : Option Campaign :=
  db.campaigns.find? (fun c => c.id == campaign_id)

/-- `app/crud.py` `create_discount_usage`: append a usage record (storing
the cart value), add the discount amount to the campaign's used budget and
rerun the lazy status derivation.  When the campaign id resolves to
nothing only the record is appended, as in the source's `if campaign:`
guard. -/
def create_discount_usage (db : DB) (campaign_id customer_id : Nat)
    (discount_amount cart_value : ℚ) (now : ℤ) : DB × UsageRecord :=
  let usage : UsageRecord :=
    { campaign_id, customer_id, discount_amount, cart_value, used_at := now }
  let campaigns :=
    match get_campaign db campaign_id with
    | some _ =>
      db.campaigns.map (fun c =>
        if c.id == campaign_id then
          update_campaign_status
            { c with used_budget := c.used_budget + discount_amount } now
        else c)
    | none => db.campaigns
  ({ db with campaigns := campaigns, ledger := db.ledger ++ [usage] }, usage)

/-- The terminal failure states of `app/routers/discounts.py`
`apply_discount` (each raised as an `HTTPException` before any write). -/
inductive ApplyError where
  | customerNotFound
  | campaignNotFound
  | notEligible
  | zeroDiscount
deriving DecidableEq, Repr

/-- `app/routers/discounts.py` `apply_discount`: verify the customer and
campaign exist, check membership in the eligible set (computed against the
cart value for CART campaigns and the delivery charge for DELIVERY
campaigns), compute the discount, reject a non-positive amount, and
otherwise commit via `create_discount_usage`.  Every failure leaves the
database untouched. -/
def apply_discount (db : DB) (campaign_id customer_id : Nat)
    (cart_value delivery_charge : ℚ) (now : ℤ) :
    DB × Except ApplyError UsageRecord :=
  if ¬ db.customers.contains customer_id then
    (db, Except.error ApplyError.customerNotFound)
  else
    match get_campaign db campaign_id with
    | none => (db, Except.error ApplyError.campaignNotFound)
    | some campaign =>
      let value :=
        if campaign.discount_type == DiscountType.cart then cart_value
        else delivery_charge
      if ¬ (get_eligible_campaigns db.campaigns db.ledger customer_id value
              now (some campaign.discount_type)).contains campaign then
        (db, Except.error ApplyError.notEligible)
      else
        let discount_amount := calculate_discount_amount campaign value
        if discount_amount ≤ 0 then
          (db, Except.error ApplyError.zeroDiscount)
        else
          let (db', usage) := create_discount_usage db campaign_id
            customer_id discount_amount cart_value now
          (db', Except.ok usage)

/-- The database state an `ApplyDiscount` request leaves behind
(successful or not). -/
def applyStep (db : DB) (r : Nat × Nat × ℚ × ℚ × ℤ) : DB :=
  (apply_discount db r.1 r.2.1 r.2.2.1 r.2.2.2.1 r.2.2.2.2).1

/-- `app/schemas.py` `CampaignUpdate`: the patch structure for campaign
mutation.  Every field is optional (`none` = not supplied); nullable
columns carry an inner `Option` so that explicitly clearing them is
representable.  There is no `used_budget` field: the update path cannot
touch the consumed budget. -/
structure CampaignUpdate where
  discount_type : Option DiscountType := none
  discount_percentage : Option (Option ℚ) := none
  discount_flat : Option (Option ℚ) := none
  start_date : Option ℤ := none
  end_date : Option ℤ := none
  total_budget : Option ℚ := none
  max_usage_per_customer_per_day : Option Nat := none
  min_cart_value : Option ℚ := none
  max_discount_amount : Option (Option ℚ) := none
  is_targeted : Option Bool := none
  target_customer_ids : Option (List Nat) := none
  status : Option CampaignStatus := none
deriving DecidableEq, Repr

/-- The per-field merge of `app/crud.py` `update_campaign` (`setattr` over
the explicitly-set fields of the patch, plus replacement of the target
list when supplied). -/
def applyCampaignUpdate (c : Campaign) (u : CampaignUpdate) : Campaign :=
  { c with
    discount_type := u.discount_type.getD c.discount_type
    discount_percentage := u.discount_percentage.getD c.discount_percentage
    discount_flat := u.discount_flat.getD c.discount_flat
    start_date := u.start_date.getD c.start_date
    end_date := u.end_date.getD c.end_date
    total_budget := u.total_budget.getD c.total_budget
    max_usage_per_customer_per_day :=
      u.max_usage_per_customer_per_day.getD c.max_usage_per_customer_per_day
    min_cart_value := u.min_cart_value.getD c.min_cart_value
    max_discount_amount := u.max_discount_amount.getD c.max_discount_amount
    is_targeted := u.is_targeted.getD c.is_targeted
    target_customers := u.target_customer_ids.getD c.target_customers
    status := u.status.getD c.status }

/-- `app/crud.py` `update_campaign`: patch the campaign with the matching
primary key, if any. -/
def update_campaign (db : DB) (campaign_id : Nat) (u : CampaignUpdate) : DB :=
  { db with campaigns := db.campaigns.map (fun c =>
      if c.id == campaign_id then applyCampaignUpdate c u else c) }

/-- `app/crud.py` `create_campaign` for a row with primary key `c.id`:
`CampaignCreate` carries no `used_budget` or `status` field, so the new
row starts with the column defaults `used_budget = 0`,
`status = ACTIVE`.  Primary-key uniqueness is modelled by refusing a
duplicate id. -/
def create_campaign (db : DB) (c : Campaign) : DB :=
  if c.id ∈ db.campaigns.map Campaign.id then db
  else { db with campaigns := db.campaigns ++
          [{ c with used_budget := 0, status := CampaignStatus.active }] }

/-- `create_customer`: register a customer id. -/
def create_customer (db : DB) (customer_id : Nat) : DB :=
  { db with customers := db.customers ++ [customer_id] }

/-- The state-mutating operations the service exposes on campaigns and
the ledger. -/
inductive Op where
  | create (c : Campaign)
  | update (campaign_id : Nat) (u : CampaignUpdate)
  | applyDiscount (campaign_id customer_id : Nat)
      (cart_value delivery_charge : ℚ) (now : ℤ)
  | createCustomer (customer_id : Nat)
deriving Repr

/-- One exposed operation acting on the database state. -/
def step (db : DB) : Op → DB
  | Op.create c => create_campaign db c
  | Op.update campaign_id u => update_campaign db campaign_id u
  | Op.applyDiscount campaign_id customer_id cart_value delivery_charge now =>
      (apply_discount db campaign_id customer_id cart_value delivery_charge now).1
  | Op.createCustomer customer_id => create_customer db customer_id

/-- Total discount amount recorded in the ledger against one campaign. -/
def ledgerSum (ledger : List UsageRecord) (campaign_id : Nat) : ℚ :=
  ((ledger.filter (fun u => u.campaign_id == campaign_id)).map
    UsageRecord.discount_amount).sum

/-- Budget invariant of the spec: campaign primary keys are distinct, all
budget figures are whole-cent currency amounts, and consumed budget never
exceeds total budget. -/
def BudgetInv (db : DB) : Prop :=
  (db.campaigns.map Campaign.id).Nodup ∧
  ∀ c ∈ db.campaigns,
    cents c.total_budget ∧ cents c.used_budget ∧
    c.used_budget ≤ c.total_budget

/-- Ledger invariant: campaign primary keys are distinct, every campaign's
`used_budget` equals the sum of the `discount_amount` of its usage
records, and every usage record points at an existing campaign. -/
def LedgerInv (db : DB) : Prop :=
  (db.campaigns.map Campaign.id).Nodup ∧
  (∀ c ∈ db.campaigns, c.used_budget = ledgerSum db.ledger c.id) ∧
  (∀ u ∈ db.ledger, u.campaign_id ∈ db.campaigns.map Campaign.id)

section Fixtures

/-- Fixture for the §8 scenario: `total_budget = 150`, `discount_flat =
100`, daily cap `5 ≥ 2`, valid over the window `[-100, 100]`. -/
def campaignA : Campaign :=
  { id := 1, discount_type := DiscountType.cart,
    discount_percentage := none, discount_flat := some 100,
    start_date := -100, end_date := 100,
    total_budget := 150, used_budget := 0,
    max_usage_per_customer_per_day := 5, min_cart_value := 0,
    max_discount_amount := none, is_targeted := false,
    target_customers := [], status := CampaignStatus.active }

/-- Database for the §8 scenario: one campaign, one customer, no usage. -/
def dbA : DB := { campaigns := [campaignA], customers := [1], ledger := [] }

/-- State of the scenario database after the first apply. -/
def dbA1 : DB := (apply_discount dbA 1 1 500 0 0).1

/-- State of the scenario database after the second apply. -/
def dbA2 : DB := (apply_discount dbA1 1 1 500 0 1).1

/-- A campaign whose total budget, `0.006`, is not a whole-cent amount. -/
def campaignSubCent : Campaign :=
  { campaignA with discount_flat := some 1, total_budget := 3/500 }

/-- Database holding the sub-cent-budget campaign. -/
def dbSubCent : DB :=
  { campaigns := [campaignSubCent], customers := [1], ledger := [] }

/-- A campaign observed exactly at its end date (`end_date = 0 = now`). -/
def campaignAtEnd : Campaign := { campaignA with end_date := 0 }

/-- A DELIVERY-type flat-10 campaign, for the usage-record value claim. -/
def campaignDelivery : Campaign :=
  { campaignA with
    discount_type := DiscountType.delivery
    discount_flat := some 10 }

/-- Database holding the delivery campaign. -/
def dbDelivery : DB :=
  { campaigns := [campaignDelivery], customers := [1], ledger := [] }

/-- A campaign with `max_discount_amount = 0` (configured but falsy). -/
def campaignMaxZero : Campaign :=
  { campaignA with discount_flat := some 50, max_discount_amount := some 0 }

/-- A campaign with `discount_percentage = 0` and `discount_flat = 50`
(both configured, percentage falsy). -/
def campaignPctZero : Campaign :=
  { campaignA with discount_percentage := some 0, discount_flat := some 50 }

/-- A targeted campaign whose target set is `{7}`. -/
def campaignTargeted : Campaign :=
  { campaignA with is_targeted := true, target_customers := [7] }

/-- The empty database. -/
def dbEmpty : DB := { campaigns := [], customers := [], ledger := [] }

/-- A flat-50 campaign with `max_discount_amount = 10`. -/
def campaignMaxTen : Campaign :=
  { campaignA with discount_flat := some 50, max_discount_amount := some 10 }

/-- A 10-percent campaign with no flat amount. -/
def campaignPct10 : Campaign :=
  { campaignA with discount_percentage := some 10, discount_flat := none }

/-- The usage record produced by the first scenario apply. -/
def recA : UsageRecord :=
  { campaign_id := 1, customer_id := 1, discount_amount := 100,
    cart_value := 500, used_at := 0 }

/-- A small operation sequence: register a customer, create the scenario
campaign, apply its discount once. -/
def opsA : List Op :=
  [Op.createCustomer 1, Op.create campaignA, Op.applyDiscount 1 1 500 0 0]

end Fixtures

/-! ## Helper lemmas -/

theorem update_campaign_status_id (c : Campaign) (now : ℤ) :
    (update_campaign_status c now).id = c.id := by
  unfold update_campaign_status; split_ifs <;> rfl

theorem update_campaign_status_used_budget (c : Campaign) (now : ℤ) :
    (update_campaign_status c now).used_budget = c.used_budget := by
  unfold update_campaign_status; split_ifs <;> rfl

theorem update_campaign_status_total_budget (c : Campaign) (now : ℤ) :
    (update_campaign_status c now).total_budget = c.total_budget := by
  unfold update_campaign_status; split_ifs <;> rfl

theorem roundHalfEven_le_of_le_int {q : ℚ} {n : ℤ} (h : q ≤ n) :
    roundHalfEven q ≤ n := by
  have hfl : (⌊q⌋ : ℚ) ≤ q := Int.floor_le q
  have hfln : ⌊q⌋ ≤ n := le_trans (Int.floor_mono h) (le_of_eq (Int.floor_intCast n))
  unfold roundHalfEven
  split_ifs with h1 h2 h3
  · exact hfln
  · rcases lt_or_eq_of_le hfln with hlt | heq
    · omega
    · exfalso
      have hq : q ≤ (⌊q⌋ : ℚ) := by rw [heq]; exact_mod_cast h
      linarith
  · exact hfln
  · push_neg at h1
    rcases lt_or_eq_of_le hfln with hlt | heq
    · omega
    · exfalso
      have hq : q ≤ (⌊q⌋ : ℚ) := by rw [heq]; exact_mod_cast h
      linarith

theorem roundHalfEven_nonneg {q : ℚ} (h : 0 ≤ q) : 0 ≤ roundHalfEven q := by
  have hfl : 0 ≤ ⌊q⌋ := Int.floor_nonneg.mpr h
  unfold roundHalfEven
  split_ifs <;> omega

theorem cents_iff {q : ℚ} : cents q ↔ ∃ n : ℤ, q = (n : ℚ) / 100 := by
  unfold cents
  constructor
  · intro h
    refine ⟨(100 * q).num, ?_⟩
    have h2 : (((100 * q).num : ℤ) : ℚ) = 100 * q := (Rat.den_eq_one_iff _).mp h
    rw [eq_div_iff (by norm_num : (100 : ℚ) ≠ 0)]
    linarith
  · rintro ⟨n, rfl⟩
    have h2 : (100 : ℚ) * ((n : ℚ) / 100) = (n : ℚ) := by ring
    rw [h2]
    exact Rat.den_intCast n

theorem cents_add {a b : ℚ} (ha : cents a) (hb : cents b) : cents (a + b) := by
  obtain ⟨m, rfl⟩ := cents_iff.mp ha
  obtain ⟨n, rfl⟩ := cents_iff.mp hb
  exact cents_iff.mpr ⟨m + n, by push_cast; ring⟩

theorem cents_sub {a b : ℚ} (ha : cents a) (hb : cents b) : cents (a - b) := by
  obtain ⟨m, rfl⟩ := cents_iff.mp ha
  obtain ⟨n, rfl⟩ := cents_iff.mp hb
  exact cents_iff.mpr ⟨m - n, by push_cast; ring⟩

theorem cents_roundTo2 (q : ℚ) : cents (roundTo2 q) :=
  cents_iff.mpr ⟨roundHalfEven (100 * q), rfl⟩

theorem roundTo2_le_of_le_cents {x r : ℚ} (h : x ≤ r) (hr : cents r) :
    roundTo2 x ≤ r := by
  obtain ⟨n, rfl⟩ := cents_iff.mp hr
  unfold roundTo2
  have h100 : 100 * x ≤ (n : ℚ) := by linarith
  have h1 : roundHalfEven (100 * x) ≤ n := roundHalfEven_le_of_le_int h100
  have h2 : ((roundHalfEven (100 * x) : ℤ) : ℚ) ≤ (n : ℚ) := by exact_mod_cast h1
  linarith

theorem roundTo2_nonneg {x : ℚ} (h : 0 ≤ x) : 0 ≤ roundTo2 x := by
  unfold roundTo2
  have h1 : 0 ≤ roundHalfEven (100 * x) := roundHalfEven_nonneg (by linarith)
  have h2 : (0 : ℚ) ≤ ((roundHalfEven (100 * x) : ℤ) : ℚ) := by exact_mod_cast h1
  linarith

/-- The calculator never grants more than the remaining budget, provided
the remaining budget is a whole-cent amount (so that the final rounding
cannot climb past it). -/
theorem calculate_le_remaining (c : Campaign) (value : ℚ)
    (hc : cents (c.total_budget - c.used_budget)) :
    calculate_discount_amount c value ≤ c.total_budget - c.used_budget := by
  dsimp only [calculate_discount_amount]
  apply roundTo2_le_of_le_cents ?_ hc
  split_ifs <;> linarith

/-- Case analysis on `apply_discount`: either the request fails and the
database is unchanged, or the campaign found by primary key was eligible,
the computed amount was positive, and the commit appended one usage record
and added exactly that amount to the used budget of every campaign row
with that primary key. -/
theorem apply_discount_cases (db : DB) (campaign_id customer_id : Nat)
    (cart_value delivery_charge : ℚ) (now : ℤ) :
    (apply_discount db campaign_id customer_id cart_value delivery_charge now).1 = db ∨
    ∃ campaign value amount,
      get_campaign db campaign_id = some campaign ∧
      value = (if campaign.discount_type = DiscountType.cart then cart_value
               else delivery_charge) ∧
      amount = calculate_discount_amount campaign value ∧
      campaign ∈ get_eligible_campaigns db.campaigns db.ledger customer_id value now
        (some campaign.discount_type) ∧
      0 < amount ∧
      (apply_discount db campaign_id customer_id cart_value delivery_charge now).1 =
        { db with
          campaigns := db.campaigns.map (fun c =>
            if c.id == campaign_id then
              update_campaign_status
                { c with used_budget := c.used_budget + amount } now
            else c)
          ledger := db.ledger ++
            [{ campaign_id := campaign_id, customer_id := customer_id,
               discount_amount := amount, cart_value := cart_value,
               used_at := now }] } := by
  by_cases hcust : customer_id ∈ db.customers
  · rcases hc : get_campaign db campaign_id with _ | campaign
    · left; simp [apply_discount, hcust, hc]
    · by_cases helig : campaign ∈ get_eligible_campaigns db.campaigns db.ledger customer_id
          (if campaign.discount_type = DiscountType.cart then cart_value else delivery_charge)
          now (some campaign.discount_type)
      · by_cases hamt : calculate_discount_amount campaign
            (if campaign.discount_type = DiscountType.cart then cart_value
             else delivery_charge) ≤ 0
        · left; simp [apply_discount, hcust, hc, helig, hamt]
        · right
          refine ⟨campaign,
            (if campaign.discount_type = DiscountType.cart then cart_value
             else delivery_charge), _, rfl, rfl, rfl, helig, lt_of_not_le hamt, ?_⟩
          simp [apply_discount, create_discount_usage, hcust, hc, helig, hamt]
      · left; simp [apply_discount, hcust, hc, helig]
  · left; simp [apply_discount, hcust]

theorem delivery_ne_cart : DiscountType.delivery ≠ DiscountType.cart :=
  fun h => nomatch h

theorem cents_calculate (c : Campaign) (value : ℚ) :
    cents (calculate_discount_amount c value) := by
  dsimp only [calculate_discount_amount]
  exact cents_roundTo2 _

theorem get_campaign_spec {db : DB} {campaign_id : Nat} {campaign : Campaign}
    (h : get_campaign db campaign_id = some campaign) :
    campaign ∈ db.campaigns ∧ campaign.id = campaign_id := by
  unfold get_campaign at h
  exact ⟨List.mem_of_find?_eq_some h, by simpa using List.find?_some h⟩

/-- One `ApplyDiscount` request, successful or not, preserves the budget
invariant: rounding cannot overshoot a whole-cent remaining budget. -/
theorem budgetInv_apply_discount (db : DB) (campaign_id customer_id : Nat)
    (cart_value delivery_charge : ℚ) (now : ℤ) (h : BudgetInv db) :
    BudgetInv (apply_discount db campaign_id customer_id cart_value
      delivery_charge now).1 := by
  obtain ⟨hnd, hinv⟩ := h
  rcases apply_discount_cases db campaign_id customer_id cart_value delivery_charge now with
    heq | ⟨campaign, value, amount, hfind, hval, hamt, helig, hpos, heq⟩
  · rw [heq]; exact ⟨hnd, hinv⟩
  · rw [heq]
    obtain ⟨hmem, hcid⟩ := get_campaign_spec hfind
    have hid : ∀ c : Campaign,
        (if c.id == campaign_id then
          update_campaign_status
            { c with used_budget := c.used_budget + amount } now
        else c).id = c.id := by
      intro c
      split
      · rw [update_campaign_status_id]
      · rfl
    constructor
    · show ((db.campaigns.map _).map Campaign.id).Nodup
      rw [List.map_map]
      simp only [Function.comp_def]
      have hcongr := List.map_congr_left (l := db.campaigns) (fun c _ => hid c)
      rw [hcongr]
      exact hnd
    · intro c' hc'
      rw [List.mem_map] at hc'
      obtain ⟨c, hc, rfl⟩ := hc'
      by_cases hcid2 : (c.id == campaign_id) = true
      · rw [if_pos hcid2]
        have hceq : c = campaign := by
          apply List.inj_on_of_nodup_map hnd hc hmem
          have : c.id = campaign_id := by simpa using hcid2
          rw [this, hcid]
        subst hceq
        obtain ⟨ht, hu, hle⟩ := hinv c hc
        refine ⟨?_, ?_, ?_⟩
        · rw [update_campaign_status_total_budget]; exact ht
        · rw [update_campaign_status_used_budget]
          exact cents_add hu (hamt ▸ cents_calculate c value)
        · rw [update_campaign_status_total_budget, update_campaign_status_used_budget]
          have hcap := calculate_le_remaining c value (cents_sub ht hu)
          rw [← hamt] at hcap
          show c.used_budget + amount ≤ c.total_budget
          linarith
      · rw [if_neg hcid2]
        exact hinv c hc

/-- Any sequence of `ApplyDiscount` requests preserves the budget
invariant. -/
theorem budgetInv_foldl (db : DB) (reqs : List (Nat × Nat × ℚ × ℚ × ℤ))
    (h : BudgetInv db) : BudgetInv (reqs.foldl applyStep db) := by
  induction reqs generalizing db with
  | nil => exact h
  | cons r rs ih =>
    exact ih _ (budgetInv_apply_discount db r.1 r.2.1 r.2.2.1 r.2.2.2.1 r.2.2.2.2 h)

/-! ## Claim theorems -/

/-- C1 (amended): for every database whose campaign budget figures are
whole-cent amounts with `used_budget ≤ total_budget` and distinct primary
keys, after any sequence of `ApplyDiscount` requests executed one after
another, every campaign still satisfies `used_budget ≤ total_budget`. -/
theorem C1_used_budget_le_total_after_allocations (db : DB)
    (reqs : List (Nat × Nat × ℚ × ℚ × ℤ)) (h : BudgetInv db) :
    ∀ c ∈ (reqs.foldl applyStep db).campaigns, c.used_budget ≤ c.total_budget :=
  fun c hc => ((budgetInv_foldl db reqs h).2 c hc).2.2

/-- Witness for C1 at the scenario database and a single request. -/
theorem C1_used_budget_le_total_after_allocations_witness :
    BudgetInv dbA ∧
    ∀ c ∈ (([(1, 1, 500, 0, 0)] : List (Nat × Nat × ℚ × ℚ × ℤ)).foldl
      applyStep dbA).campaigns, c.used_budget ≤ c.total_budget := by
  have h : BudgetInv dbA := by
    constructor
    · norm_num [dbA, campaignA]
    · intro c hc
      norm_num [dbA] at hc
      subst hc
      refine ⟨cents_iff.mpr ⟨15000, by norm_num [campaignA]⟩,
              cents_iff.mpr ⟨0, by norm_num [campaignA]⟩, by norm_num [campaignA]⟩
  exact ⟨h, C1_used_budget_le_total_after_allocations dbA _ h⟩

/-- C1 counterexample to the unrestricted claim: with the sub-cent total
budget `0.006` a single successful allocation rounds the granted amount up
to `0.01` and leaves `used_budget = 0.01 > 0.006 = total_budget`. -/
theorem C1_counterexample_subcent_budget_overshoot :
    (apply_discount dbSubCent 1 1 500 0 0).2 =
      Except.ok { campaign_id := 1, customer_id := 1, discount_amount := 1/100,
                  cart_value := 500, used_at := 0 } ∧
    (apply_discount dbSubCent 1 1 500 0 0).1.campaigns =
      [{ campaignSubCent with
         used_budget := 1/100
         status := CampaignStatus.budget_exhausted }] ∧
    campaignSubCent.total_budget < 1/100 := by
  refine ⟨?_, ?_, by norm_num [campaignSubCent, campaignA]⟩ <;>
  norm_num [apply_discount, dbSubCent, campaignSubCent, campaignA, get_campaign,
    get_eligible_campaigns, get_customer_daily_usage_count, calculate_discount_amount,
    base_discount, truthy, roundTo2, roundHalfEven, create_discount_usage, List.filter,
    update_campaign_status, List.find?]

/-- C2 (amended): a campaign is eligible only when
`start_date ≤ now ≤ end_date`: the window is closed at both ends, so a
campaign observed exactly at its end date is still eligible (the date
filter uses `end_date >= now`). -/
theorem C2_eligible_only_within_closed_window (campaigns : List Campaign)
    (ledger : List UsageRecord) (customer_id : Nat) (value : ℚ) (now : ℤ)
    (dtype : Option DiscountType) (c : Campaign)
    (h : c ∈ get_eligible_campaigns campaigns ledger customer_id value now dtype) :
    c.start_date ≤ now ∧ now ≤ c.end_date := by
  unfold get_eligible_campaigns at h
  rw [List.mem_filter] at h
  obtain ⟨h1, _⟩ := h
  rw [List.mem_filter] at h1
  obtain ⟨_, hcond⟩ := h1
  simp only [Bool.and_eq_true, decide_eq_true_eq] at hcond
  exact ⟨hcond.1.1.1.1.2, hcond.1.1.1.2⟩

/-- Witness for C2 at the scenario campaign observed at time 0. -/
theorem C2_eligible_only_within_closed_window_witness :
    campaignA ∈ get_eligible_campaigns [campaignA] [] 1 500 0 none ∧
    (campaignA.start_date ≤ 0 ∧ (0 : ℤ) ≤ campaignA.end_date) := by
  have h : campaignA ∈ get_eligible_campaigns [campaignA] [] 1 500 0 none := by
    norm_num [get_eligible_campaigns, campaignA, get_customer_daily_usage_count,
      List.filter]
  exact ⟨h, C2_eligible_only_within_closed_window [campaignA] [] 1 500 0 none
    campaignA h⟩

/-- C2 counterexample to the half-open-window claim: a campaign evaluated
exactly at `now = end_date` is still eligible. -/
theorem C2_counterexample_eligible_at_end_date :
    campaignAtEnd.end_date = 0 ∧
    campaignAtEnd ∈ get_eligible_campaigns [campaignAtEnd] [] 1 500 0 none := by
  constructor
  · rfl
  · norm_num [get_eligible_campaigns, campaignAtEnd, campaignA,
      get_customer_daily_usage_count, List.filter]

/-- C5: with `total_budget = 150`, `discount_flat = 100` and daily cap
`≥ 2`, two sequential applies against a 500 cart value grant `100` and
then `50`, and a third apply fails as not eligible (budget exhausted). -/
theorem C5_budget_exhaustion_scenario :
    (apply_discount dbA 1 1 500 0 0).2 =
      Except.ok { campaign_id := 1, customer_id := 1, discount_amount := 100,
                  cart_value := 500, used_at := 0 } ∧
    (apply_discount dbA1 1 1 500 0 1).2 =
      Except.ok { campaign_id := 1, customer_id := 1, discount_amount := 50,
                  cart_value := 500, used_at := 1 } ∧
    (apply_discount dbA2 1 1 500 0 2).2 = Except.error ApplyError.notEligible := by
  refine ⟨?_, ?_, ?_⟩ <;>
  norm_num [apply_discount, dbA, dbA1, dbA2, campaignA, get_campaign,
    get_eligible_campaigns, get_customer_daily_usage_count, startOfDay,
    calculate_discount_amount, base_discount, truthy, roundTo2, roundHalfEven,
    create_discount_usage, List.filter, update_campaign_status, List.find?]

/-- C6: a targeted campaign is never eligible for a customer outside its
target set; in particular a targeted campaign with an empty target set is
eligible for nobody. -/
theorem C6_targeting_exclusivity (campaigns : List Campaign)
    (ledger : List UsageRecord) (customer_id : Nat) (value : ℚ) (now : ℤ)
    (dtype : Option DiscountType) (c : Campaign) (ht : c.is_targeted = true)
    (hmem : customer_id ∉ c.target_customers) :
    c ∉ get_eligible_campaigns campaigns ledger customer_id value now dtype := by
  intro h
  unfold get_eligible_campaigns at h
  rw [List.mem_filter] at h
  obtain ⟨_, hcond⟩ := h
  simp only [Bool.and_eq_true, Bool.or_eq_true, Bool.not_eq_true',
    decide_eq_true_eq] at hcond
  rcases hcond.1.1 with hfalse | hcontains
  · rw [ht] at hfalse; cases hfalse
  · exact hmem (by simpa using hcontains)

/-- Witness for C6: the campaign targeted at customer 7 is not eligible
for customer 1. -/
theorem C6_targeting_exclusivity_witness :
    campaignTargeted.is_targeted = true ∧
    (1 : Nat) ∉ campaignTargeted.target_customers ∧
    campaignTargeted ∉ get_eligible_campaigns [campaignTargeted] [] 1 500 0 none := by
  have h2 : (1 : Nat) ∉ campaignTargeted.target_customers := by
    norm_num [campaignTargeted, campaignA]
  exact ⟨rfl, h2,
    C6_targeting_exclusivity [campaignTargeted] [] 1 500 0 none campaignTargeted rfl h2⟩

/-- C3 (amended): every successful `ApplyDiscount` stores the request's
cart value in the usage record — also for DELIVERY campaigns, whose
discount is computed against the delivery charge; the computed-against
value itself is only stored when the campaign is CART-type. -/
theorem C3_usage_record_stores_request_cart_value (db : DB)
    (campaign_id customer_id : Nat) (cart_value delivery_charge : ℚ) (now : ℤ)
    (p : UsageRecord)
    (h : (apply_discount db campaign_id customer_id cart_value delivery_charge now).2 =
      Except.ok p) :
    p.cart_value = cart_value ∧
    ∃ campaign, get_campaign db campaign_id = some campaign ∧
      p.discount_amount = calculate_discount_amount campaign
        (if campaign.discount_type = DiscountType.cart then cart_value
         else delivery_charge) := by
  by_cases hcust : customer_id ∈ db.customers
  · rcases hc : get_campaign db campaign_id with _ | campaign
    · simp [apply_discount, hcust, hc] at h
    · by_cases helig : campaign ∈ get_eligible_campaigns db.campaigns db.ledger customer_id
          (if campaign.discount_type = DiscountType.cart then cart_value else delivery_charge)
          now (some campaign.discount_type)
      · by_cases hamt : calculate_discount_amount campaign
            (if campaign.discount_type = DiscountType.cart then cart_value
             else delivery_charge) ≤ 0
        · simp [apply_discount, hcust, hc, helig, hamt] at h
        · simp [apply_discount, create_discount_usage, hcust, hc, helig, hamt] at h
          subst h
          exact ⟨rfl, campaign, rfl, rfl⟩
      · simp [apply_discount, hcust, hc, helig] at h
  · simp [apply_discount, hcust] at h

/-- Witness for C3 at the scenario database. -/
theorem C3_usage_record_stores_request_cart_value_witness :
    ((apply_discount dbA 1 1 500 0 0).2 = Except.ok recA) ∧
    (recA.cart_value = 500 ∧
     ∃ campaign, get_campaign dbA 1 = some campaign ∧
       recA.discount_amount = calculate_discount_amount campaign
         (if campaign.discount_type = DiscountType.cart then 500 else 0)) := by
  have h : (apply_discount dbA 1 1 500 0 0).2 = Except.ok recA := by
    norm_num [apply_discount, dbA, campaignA, recA, get_campaign, get_eligible_campaigns,
      get_customer_daily_usage_count, calculate_discount_amount, base_discount, truthy,
      roundTo2, roundHalfEven, create_discount_usage, List.filter, update_campaign_status,
      List.find?]
  exact ⟨h, C3_usage_record_stores_request_cart_value dbA 1 1 500 0 0 recA h⟩

/-- C3 counterexample to the claim as stated: a DELIVERY campaign whose
discount was computed against a delivery charge of 100 stores 500 — the
cart value — in the usage record. -/
theorem C3_counterexample_delivery_record_stores_cart_value :
    campaignDelivery.discount_type = DiscountType.delivery ∧
    (apply_discount dbDelivery 1 1 500 100 0).2 =
      Except.ok { campaign_id := 1, customer_id := 1, discount_amount := 10,
                  cart_value := 500, used_at := 0 } ∧
    calculate_discount_amount campaignDelivery 100 = 10 ∧
    (500 : ℚ) ≠ 100 := by
  refine ⟨rfl, ?_, ?_, by norm_num⟩ <;>
  norm_num [apply_discount, dbDelivery, campaignDelivery, campaignA, get_campaign,
    get_eligible_campaigns, get_customer_daily_usage_count, calculate_discount_amount,
    base_discount, truthy, roundTo2, roundHalfEven, create_discount_usage, List.filter,
    update_campaign_status, List.find?, delivery_ne_cart]

/-- C4: every `ApplyDiscount` call that terminates in a failure state
(customer not found, campaign not found, not eligible, or zero computed
discount) leaves the database — campaigns, ledger and customers —
completely unchanged. -/
theorem C4_failures_are_side_effect_free (db : DB)
    (campaign_id customer_id : Nat) (cart_value delivery_charge : ℚ)
    (now : ℤ) (e : ApplyError)
    (h : (apply_discount db campaign_id customer_id cart_value delivery_charge now).2 =
      Except.error e) :
    (apply_discount db campaign_id customer_id cart_value delivery_charge now).1 = db := by
  by_cases hcust : customer_id ∈ db.customers
  · rcases hc : get_campaign db campaign_id with _ | campaign
    · simp [apply_discount, hcust, hc]
    · by_cases helig : campaign ∈ get_eligible_campaigns db.campaigns db.ledger customer_id
          (if campaign.discount_type = DiscountType.cart then cart_value else delivery_charge)
          now (some campaign.discount_type)
      · by_cases hamt : calculate_discount_amount campaign
            (if campaign.discount_type = DiscountType.cart then cart_value
             else delivery_charge) ≤ 0
        · simp [apply_discount, hcust, hc, helig, hamt]
        · simp [apply_discount, hcust, hc, helig, hamt] at h
      · simp [apply_discount, hcust, hc, helig]
  · simp [apply_discount, hcust]

/-- Witness for C4: a request against the empty database fails with
customer-not-found and changes nothing. -/
theorem C4_failures_are_side_effect_free_witness :
    ((apply_discount dbEmpty 1 1 500 0 0).2 =
      Except.error ApplyError.customerNotFound) ∧
    (apply_discount dbEmpty 1 1 500 0 0).1 = dbEmpty := by
  have h : (apply_discount dbEmpty 1 1 500 0 0).2 =
      Except.error ApplyError.customerNotFound := by
    norm_num [apply_discount, dbEmpty]
  exact ⟨h, C4_failures_are_side_effect_free dbEmpty 1 1 500 0 0
    ApplyError.customerNotFound h⟩

/-- C7: for every campaign satisfying the data-model constraints
(nonnegative configured percentage, flat amount and cap, and
`used_budget ≤ total_budget`) and every value `≥ 0`, the calculator
returns an amount `≥ 0`, and returns exactly 0 when no discount
configuration is present. -/
theorem C7_discount_amount_nonneg (c : Campaign) (value : ℚ) (hv : 0 ≤ value)
    (hp : ∀ p ∈ c.discount_percentage, 0 ≤ p)
    (hf : ∀ f ∈ c.discount_flat, 0 ≤ f)
    (hm : ∀ m ∈ c.max_discount_amount, 0 ≤ m)
    (hb : c.used_budget ≤ c.total_budget) :
    0 ≤ calculate_discount_amount c value ∧
    (c.discount_percentage = none → c.discount_flat = none →
      calculate_discount_amount c value = 0) := by
  have h1 : 0 ≤ c.discount_percentage.getD 0 := by
    cases hpc : c.discount_percentage with
    | none => norm_num
    | some p => exact hp p (by simp [hpc])
  have h2 : 0 ≤ c.discount_flat.getD 0 := by
    cases hfc : c.discount_flat with
    | none => norm_num
    | some f => exact hf f (by simp [hfc])
  have h3 : 0 ≤ c.max_discount_amount.getD 0 := by
    cases hmc : c.max_discount_amount with
    | none => norm_num
    | some m => exact hm m (by simp [hmc])
  have h4 : 0 ≤ c.total_budget - c.used_budget := by linarith
  have h5 : 0 ≤ value * (c.discount_percentage.getD 0 / 100) :=
    mul_nonneg hv (div_nonneg h1 (by norm_num))
  constructor
  · dsimp only [calculate_discount_amount, base_discount]
    apply roundTo2_nonneg
    split_ifs <;> linarith
  · intro hpn hfn
    have hbase : base_discount c value = 0 := by
      unfold base_discount
      rw [hpn, hfn]
      simp [truthy]
    have hnc1 : ¬(truthy c.max_discount_amount = true ∧
        (0:ℚ) > c.max_discount_amount.getD 0) := by
      rintro ⟨-, hgt⟩; linarith
    dsimp only [calculate_discount_amount]
    rw [hbase, if_neg hnc1,
        if_neg (by linarith : ¬((0:ℚ) > c.total_budget - c.used_budget)),
        if_neg (by linarith : ¬((0:ℚ) > value))]
    norm_num [roundTo2, roundHalfEven]

/-- Witness for C7 at the scenario campaign. -/
theorem C7_discount_amount_nonneg_witness :
    0 ≤ calculate_discount_amount campaignA 500 ∧
    (campaignA.discount_percentage = none → campaignA.discount_flat = none →
      calculate_discount_amount campaignA 500 = 0) :=
  C7_discount_amount_nonneg campaignA 500 (by norm_num)
    (by simp [campaignA]) (by norm_num [campaignA])
    (by simp [campaignA]) (by norm_num [campaignA])

/-- C8 (amended): when `max_discount_amount` is configured with a nonzero
whole-cent value `m`, the computed discount never exceeds `m`; a
configured cap of exactly 0 is skipped by the truthiness test. -/
theorem C8_discount_capped_by_nonzero_max (c : Campaign) (value m : ℚ)
    (hm : c.max_discount_amount = some m) (hmz : m ≠ 0) (hcent : cents m) :
    calculate_discount_amount c value ≤ m := by
  dsimp only [calculate_discount_amount]
  apply roundTo2_le_of_le_cents ?_ hcent
  rw [hm]
  simp only [Option.getD_some]
  have htr : truthy (some m) = true := by
    show (m != 0) = true
    exact bne_iff_ne.mpr hmz
  rcases le_or_lt (base_discount c value) m with hble | hbgt
  · have hd1 : (if truthy (some m) = true ∧ base_discount c value > m then m
        else base_discount c value) = base_discount c value :=
      if_neg (by rintro ⟨-, hgt⟩; linarith)
    rw [hd1]
    split_ifs <;> linarith
  · have hd1 : (if truthy (some m) = true ∧ base_discount c value > m then m
        else base_discount c value) = m :=
      if_pos ⟨htr, hbgt⟩
    rw [hd1]
    split_ifs <;> linarith

/-- Witness for C8 at the campaign capped at 10. -/
theorem C8_discount_capped_by_nonzero_max_witness :
    calculate_discount_amount campaignMaxTen 500 ≤ 10 :=
  C8_discount_capped_by_nonzero_max campaignMaxTen 500 10 rfl (by norm_num)
    (cents_iff.mpr ⟨1000, by norm_num⟩)

/-- C8 counterexample to the claim including `max_discount_amount = 0`:
with a configured cap of 0 the flat-50 discount is granted in full. -/
theorem C8_counterexample_zero_cap_ignored :
    campaignMaxZero.max_discount_amount = some 0 ∧
    calculate_discount_amount campaignMaxZero 500 = 50 ∧ ¬(50 : ℚ) ≤ 0 := by
  refine ⟨rfl, ?_, by norm_num⟩
  norm_num [calculate_discount_amount, base_discount, truthy, roundTo2, roundHalfEven,
    campaignMaxZero, campaignA]

/-- C9 (amended): the percentage governs the base amount only when
`discount_percentage` is set and nonzero; when it is `None` or `0` and a
nonzero flat amount is set, the base amount is the flat amount. -/
theorem C9_percentage_precedence_truthiness (c : Campaign) (value : ℚ) :
    (truthy c.discount_percentage = true →
      base_discount c value = value * (c.discount_percentage.getD 0 / 100)) ∧
    ((c.discount_percentage = none ∨ c.discount_percentage = some 0) →
      truthy c.discount_flat = true →
      base_discount c value = c.discount_flat.getD 0) := by
  constructor
  · intro h
    unfold base_discount
    rw [if_pos h]
  · intro h hflat
    have hfalse : truthy c.discount_percentage = false := by
      rcases h with h | h <;> simp [truthy, h]
    unfold base_discount
    rw [if_neg (by simp [hfalse]), if_pos hflat]

/-- Witness for C9 at a 10-percent campaign and at the
percentage-0/flat-50 campaign. -/
theorem C9_percentage_precedence_truthiness_witness :
    base_discount campaignPct10 500 = 500 * (10 / 100) ∧
    base_discount campaignPctZero 100 = 50 := by
  constructor
  · have h := (C9_percentage_precedence_truthiness campaignPct10 500).1
      (by norm_num [truthy, campaignPct10, campaignA])
    simpa [campaignPct10, campaignA] using h
  · have h := (C9_percentage_precedence_truthiness campaignPctZero 100).2 (Or.inr rfl)
      (by norm_num [truthy, campaignPctZero, campaignA])
    simpa [campaignPctZero, campaignA] using h

/-- C9 counterexample to the claim including `discount_percentage = 0`:
with percentage 0 and flat 50 both set, the base amount is 50, not
`value * 0 / 100 = 0`. -/
theorem C9_counterexample_zero_percentage_falls_through :
    campaignPctZero.discount_percentage = some 0 ∧
    campaignPctZero.discount_flat = some 50 ∧
    base_discount campaignPctZero 100 = 50 ∧
    (100 : ℚ) * (0 / 100) = 0 ∧ (50 : ℚ) ≠ 0 := by
  refine ⟨rfl, rfl, ?_, by norm_num, by norm_num⟩
  norm_num [base_discount, truthy, campaignPctZero, campaignA]

theorem map_ids_of_id_preserved {l : List Campaign} {f : Campaign → Campaign}
    (h : ∀ c, (f c).id = c.id) :
    (l.map f).map Campaign.id = l.map Campaign.id := by
  rw [List.map_map]
  simp only [Function.comp_def]
  exact List.map_congr_left (fun c _ => h c)

theorem ledgerSum_append (l : List UsageRecord) (u : UsageRecord) (cid : Nat) :
    ledgerSum (l ++ [u]) cid =
      ledgerSum l cid + (if u.campaign_id = cid then u.discount_amount else 0) := by
  by_cases h : u.campaign_id = cid <;>
  simp [ledgerSum, List.filter_append, h]

theorem ledgerSum_eq_zero {l : List UsageRecord} {cid : Nat}
    (h : ∀ u ∈ l, u.campaign_id ≠ cid) : ledgerSum l cid = 0 := by
  unfold ledgerSum
  have hnil : l.filter (fun u => u.campaign_id == cid) = [] := by
    rw [List.filter_eq_nil_iff]
    intro u hu
    simpa using h u hu
  rw [hnil]
  rfl

theorem ledgerInv_step (db : DB) (op : Op) (h : LedgerInv db) :
    LedgerInv (step db op) := by
  obtain ⟨hnd, hsum, hids⟩ := h
  cases op with
  | create c =>
    dsimp only [step, create_campaign]
    split_ifs with hdup
    · exact ⟨hnd, hsum, hids⟩
    · refine ⟨?_, ?_, ?_⟩
      · rw [List.map_append]
        rw [List.nodup_append]
        refine ⟨hnd, List.nodup_singleton _, ?_⟩
        intro x hx
        simp only [List.map_cons, List.map_nil, List.mem_singleton] at *
        intro hx2
        subst hx2
        exact hdup hx
      · intro d hd
        rw [List.mem_append] at hd
        rcases hd with hd | hd
        · exact hsum d hd
        · rw [List.mem_singleton] at hd
          subst hd
          show (0 : ℚ) = ledgerSum db.ledger c.id
          rw [ledgerSum_eq_zero]
          intro u hu huc
          exact hdup (huc ▸ hids u hu)
      · intro u hu
        rw [List.map_append]
        exact List.mem_append_left _ (hids u hu)
  | update campaign_id u =>
    dsimp only [step, update_campaign]
    have hidf : ∀ c : Campaign,
        (if c.id == campaign_id then applyCampaignUpdate c u else c).id = c.id := by
      intro c; split <;> rfl
    refine ⟨?_, ?_, ?_⟩
    · show ((db.campaigns.map _).map Campaign.id).Nodup
      rw [map_ids_of_id_preserved hidf]
      exact hnd
    · intro d hd
      rw [List.mem_map] at hd
      obtain ⟨c, hc, rfl⟩ := hd
      have hused : (if c.id == campaign_id then applyCampaignUpdate c u else c).used_budget =
          c.used_budget := by
        split <;> rfl
      rw [hused, hidf c]
      exact hsum c hc
    · intro u2 hu2
      show u2.campaign_id ∈ (db.campaigns.map _).map Campaign.id
      rw [map_ids_of_id_preserved hidf]
      exact hids u2 hu2
  | applyDiscount campaign_id customer_id cart_value delivery_charge now =>
    dsimp only [step]
    rcases apply_discount_cases db campaign_id customer_id cart_value delivery_charge now with
      heq | ⟨campaign, value, amount, hfind, hval, hamt, helig, hpos, heq⟩
    · rw [heq]; exact ⟨hnd, hsum, hids⟩
    · rw [heq]
      obtain ⟨hmem, hcid⟩ := get_campaign_spec hfind
      have hidf : ∀ c : Campaign,
          (if c.id == campaign_id then
            update_campaign_status
              { c with used_budget := c.used_budget + amount } now
          else c).id = c.id := by
        intro c
        split
        · rw [update_campaign_status_id]
        · rfl
      refine ⟨?_, ?_, ?_⟩
      · show ((db.campaigns.map _).map Campaign.id).Nodup
        rw [map_ids_of_id_preserved hidf]
        exact hnd
      · intro d hd
        rw [List.mem_map] at hd
        obtain ⟨c, hc, rfl⟩ := hd
        by_cases hcid2 : (c.id == campaign_id) = true
        · rw [if_pos hcid2]
          have hceq : c = campaign := by
            apply List.inj_on_of_nodup_map hnd hc hmem
            have : c.id = campaign_id := by simpa using hcid2
            rw [this, hcid]
          subst hceq
          rw [update_campaign_status_used_budget, update_campaign_status_id]
          show c.used_budget + amount = ledgerSum (db.ledger ++ [_]) c.id
          rw [ledgerSum_append, hsum c hc]
          have hcc : campaign_id = c.id := by
            have : c.id = campaign_id := by simpa using hcid2
            rw [this]
          rw [if_pos hcc]
        · rw [if_neg hcid2]
          rw [hsum c hc]
          show ledgerSum db.ledger c.id = ledgerSum (db.ledger ++ [_]) c.id
          rw [ledgerSum_append, if_neg, add_zero]
          intro hcc
          exact hcid2 (by simp [← hcc])
      · intro u hu
        rw [List.mem_append] at hu
        show u.campaign_id ∈ (db.campaigns.map _).map Campaign.id
        rw [map_ids_of_id_preserved hidf]
        rcases hu with hu | hu
        · exact hids u hu
        · rw [List.mem_singleton] at hu
          subst hu
          show campaign_id ∈ db.campaigns.map Campaign.id
          rw [← hcid]
          exact List.mem_map_of_mem Campaign.id hmem
  | createCustomer customer_id =>
    exact ⟨hnd, hsum, hids⟩

theorem ledgerInv_foldl (db : DB) (ops : List Op) (h : LedgerInv db) :
    LedgerInv (ops.foldl step db) := by
  induction ops generalizing db with
  | nil => exact h
  | cons o os ih => exact ih _ (ledgerInv_step db o h)

/-- C10: campaign updates cannot change `used_budget` (the patch structure
has no such field), and for every database satisfying the ledger invariant
— in particular one built from the empty database, since campaigns are
created with `used_budget = 0` — after any sequence of exposed operations
every campaign's `used_budget` equals the sum of the `discount_amount`
of its usage records. -/
theorem C10_used_budget_equals_ledger_sum (db : DB) (ops : List Op)
    (h : LedgerInv db) :
    (∀ (c : Campaign) (u : CampaignUpdate),
      (applyCampaignUpdate c u).used_budget = c.used_budget) ∧
    ∀ c ∈ (ops.foldl step db).campaigns,
      c.used_budget = ledgerSum (ops.foldl step db).ledger c.id :=
  ⟨fun _ _ => rfl, fun c hc => (ledgerInv_foldl db ops h).2.1 c hc⟩

/-- Witness for C10: starting from the empty database, run the small
operation sequence. -/
theorem C10_used_budget_equals_ledger_sum_witness :
    LedgerInv dbEmpty ∧
    ((∀ (c : Campaign) (u : CampaignUpdate),
      (applyCampaignUpdate c u).used_budget = c.used_budget) ∧
    ∀ c ∈ (opsA.foldl step dbEmpty).campaigns,
      c.used_budget = ledgerSum (opsA.foldl step dbEmpty).ledger c.id) := by
  have h : LedgerInv dbEmpty := by
    refine ⟨?_, ?_, ?_⟩ <;> simp [dbEmpty, List.Nodup]
  exact ⟨h, C10_used_budget_equals_ledger_sum dbEmpty opsA h⟩

end CampaignService
